import Mathlib

/-!
Verification development for the trustworthiness-scorecard pipeline
(Python repository: license classification, capacity/size scoring,
score normalizers, bus-factor entropy, LLM-response parsing, and the
batch orchestrators `collect_and_write` / `handle_input_file`).

Each Python function is embedded as a Lean definition translated from
the source.  Python floats are modeled by exact rationals or reals;
Python exceptions by `Except`/`Option`; Python dicts by association
lists.  Comments on each definition name the source file and lines.
-/

/-- Python `str.lower()` restricted to its ASCII action (all license
identifiers and placeholder tokens in this code base are ASCII). -/
def asciiLowerChar (c : Char) : Char :=
  if c.toNat ≥ 65 ∧ c.toNat ≤ 90 then Char.ofNat (c.toNat + 32) else c

/-- Python `str.lower()` on a whole string. -/
def pyLower (s : String) : String := ⟨s.data.map asciiLowerChar⟩

/- ===================================================================
   src/license_compat.py
   =================================================================== -/

namespace LicenseCompat

/-- Value of a `cardData.license` field: the source checks
`isinstance(lic, str)` then `isinstance(lic, list)`. -/
inductive LicVal where
  | str (s : String)
  | list (l : List String)
deriving DecidableEq

/-- The part of a registry `cardData` dict the license extractor reads.
`license = none` models an absent `license` key. -/
structure CardData where
  license : Option LicVal
deriving DecidableEq

/-- The part of a registry metadata dict `extract_license` reads.
`license = none` models an absent top-level `license` key; a
`cardData` that is absent or an empty (falsy) dict is modeled as
`cardData = none`, since `if card_data:` rejects both identically. -/
structure RegistryData where
  license : Option String
  cardData : Option CardData
deriving DecidableEq

/-- `extract_license` (license_compat.py lines 31-47).
`if license_str and license_str != "unknown": return license_str` —
Python string truthiness is nonemptiness. -/
def extract_license (data : RegistryData) : String :=
  match data.license with
  | some s =>
    if s ≠ "" ∧ s ≠ "unknown" then s
    else extractFromCard data.cardData
  | none => extractFromCard data.cardData
where
  /-- The `cardData` fallback path (lines 39-47). -/
  extractFromCard : Option CardData → String
  | some card =>
    match card.license with
    | some (.str s) => s
    | some (.list (h :: _)) => h
    | some (.list []) => "unknown"
    | none => "unknown"
  | none => "unknown"

/-- `COMPATIBLE_LICENSES` (license_compat.py lines 49-53). -/
def COMPATIBLE_LICENSES : List String :=
  ["mit", "bsd-2-clause", "bsd-3-clause",
   "apache-2.0", "isc", "zlib", "mpl-2.0",
   "epl-2.0", "cddl-1.0", "lgpl-2.1", "lgpl-2.1-or-later", "gpl-2.0"]

/-- `is_lgpl_compatible` (license_compat.py lines 55-60):
`1 if license_str.lower() in COMPATIBLE_LICENSES else 0`. -/
def is_lgpl_compatible (license_str : String) : ℤ :=
  if COMPATIBLE_LICENSES.contains (pyLower license_str) then 1 else 0

end LicenseCompat

/- ===================================================================
   src/HF_API_Integration.py : pure scorers
   =================================================================== -/

namespace HFAPI

/-- `_compat_from_capacity` (HF_API_Integration.py lines 55-75).
Byte counts are integers; the Python float score values are the exact
decimals written in the source, modeled as rationals. -/
def compat_from_capacity (size_bytes capacity_bytes : ℤ) : ℚ :=
  if size_bytes ≤ 0 then 0
  else if capacity_bytes ≤ 0 then 0
  else
    let ratio : ℚ := (size_bytes : ℚ) / (capacity_bytes : ℚ)
    if ratio ≤ 0.25 then 1
    else if ratio ≤ 0.5 then 0.85
    else if ratio ≤ 1 then 0.70
    else if ratio ≤ 2 then 0.40
    else if ratio ≤ 4 then 0.20
    else 0

/-- `_score_tags` (HF_API_Integration.py lines 275-288), on list inputs
(a non-list input returns 0.0 before this count is reached).  Python
string truthiness makes `[t for t in tags if t]` keep the nonempty
entries. -/
def score_tags (tags : List String) : ℚ :=
  let n := (tags.filter (fun t => t ≠ "")).length
  if n ≥ 5 then 1
  else if n ≥ 3 then 0.8
  else if n ≥ 1 then 0.5
  else 0

end HFAPI

/- ===================================================================
   src/hf_model_size.py : calculate_size_metric
   =================================================================== -/

/-- Python banker's rounding (`round` ties-to-even) on an exact
rational. -/
def pyRound (q : ℚ) : ℤ :=
  let f := ⌊q⌋
  if q - f < 1/2 then f
  else if (1:ℚ)/2 < q - f then f + 1
  else if 2 ∣ f then f else f + 1

/-- Python `round(x, 3)` on an exact rational. -/
def roundTo3 (q : ℚ) : ℚ := (pyRound (q * 1000) : ℚ) / 1000

/-- Python `round(x, 2)` on an exact rational. -/
def roundTo2 (q : ℚ) : ℚ := (pyRound (q * 100) : ℚ) / 100

/-- Python `int(x)` on a float value: truncation toward zero
(`Int` division in Lean truncates toward zero). -/
def pyTrunc (q : ℚ) : ℤ := q.num / (q.den : ℤ)

namespace HFModelSize

/-- The part of `get_model_file_sizes`' result that
`calculate_size_metric` reads: the `error` key marker and
`total_size_bytes`. -/
structure ModelInfo where
  hasError : Bool
  total_size_bytes : ℤ
deriving DecidableEq

/-- `CANONICAL_CONSTRAINTS` (hf_model_size.py lines 102-107). -/
def CANONICAL_CONSTRAINTS : List (String × ℤ) :=
  [("raspberry_pi", 1 * 1024 ^ 3),
   ("jetson_nano", 4 * 1024 ^ 3),
   ("desktop_pc", 16 * 1024 ^ 3),
   ("aws_server", 32 * 1024 ^ 3)]

/-- Per-device score of `calculate_size_metric` (hf_model_size.py
lines 109-119): `ratio = total/capacity` (0 if capacity is 0), then
`max(0, 1 - ratio)` if `ratio <= 1` else `0`, rounded to 3 places. -/
def deviceScore (total_size capacity : ℤ) : ℚ :=
  let ratio : ℚ := if capacity ≠ 0 then (total_size : ℚ) / (capacity : ℚ) else 0
  roundTo3 (if ratio ≤ 1 then max 0 (1 - ratio) else 0)

/-- `calculate_size_metric`'s `size_score` device dict (hf_model_size.py
lines 87-128) for a non-error, nonzero-size `model_info`; an error or
zero total size yields `size_metric = 0.0` with no device dict. -/
def calculate_size_metric_scores (info : ModelInfo) : Option (List (String × ℚ)) :=
  if info.hasError then none
  else if info.total_size_bytes = 0 then none
  else some (CANONICAL_CONSTRAINTS.map
    (fun dc => (dc.1, deviceScore info.total_size_bytes dc.2)))

end HFModelSize

/- ===================================================================
   Python string primitives over `List Char` (kernel-reducible).
   =================================================================== -/

namespace PyStr

/-- The whitespace characters removed by Python's default `str.strip`. -/
def pySpace (c : Char) : Bool :=
  c == ' ' || c == '\t' || c == '\n' || c == '\r' || c == '\x0b' || c == '\x0c'

/-- `str.strip()` acting on the left end. -/
def stripLeft (s : List Char) : List Char := s.dropWhile pySpace

/-- `str.strip()` acting on the right end. -/
def stripRight (s : List Char) : List Char := (s.reverse.dropWhile pySpace).reverse

/-- Python `str.strip()`. -/
def pyStrip (s : List Char) : List Char := stripRight (stripLeft s)

/-- Python `str.lstrip(",")`. -/
def lstripComma (s : List Char) : List Char := s.dropWhile (fun c => c == ',')

/-- Python `str.split(sep)` for a one-character separator: splits on
every occurrence, keeping empty segments. -/
def pySplit (sep : Char) : List Char → List (List Char)
  | [] => [[]]
  | c :: cs =>
    if c == sep then [] :: pySplit sep cs
    else
      match pySplit sep cs with
      | [] => [[c]]
      | y :: ys => (c :: y) :: ys

/-- Index-free first-occurrence test used to model `re.search` of a
literal pattern: `subOcc pat s` holds iff `pat` occurs in `s`. -/
def containsSub (pat : List Char) : List Char → Bool
  | [] => pat.isEmpty
  | s@(_ :: rest) => pat.isPrefixOf s || containsSub pat rest

/-- Python `str.strip()` on `String`. -/
def pyStripS (s : String) : String := ⟨pyStrip s.data⟩

end PyStr

/- ===================================================================
   src/HF_API_Integration.py : _extract_model_id and _normalize_size
   =================================================================== -/

namespace HFAPI

open PyStr

/-- The literal URL prefix `_extract_model_id` tests for. -/
def hfUrlStart : List Char := "https://huggingface.co/".data

/-- `_extract_model_id` (HF_API_Integration.py lines 198-207):
`s = input.strip().lstrip(",")`; on a registry URL, the first two
nonempty path segments joined by `/` (or the single segment, or `s`
itself when the path is empty); otherwise `s`. -/
def extract_model_id (input : List Char) : List Char :=
  let s := lstripComma (pyStrip input)
  if hfUrlStart.isPrefixOf s then
    let parts := (pySplit '/' (s.drop hfUrlStart.length)).filter (fun p => !p.isEmpty)
    match parts with
    | p0 :: p1 :: _ => p0 ++ '/' :: p1
    | [p0] => p0
    | [] => s
  else s

/-- `_extract_model_id` as a `String` function. -/
def extract_model_id_s (s : String) : String := ⟨extract_model_id s.data⟩

/-- `_normalize_size` (HF_API_Integration.py lines 45-53): 0 for
nonpositive sizes, else the base-10 logarithmic interpolation between
1 MB and 10 GB, clamped to the unit interval. -/
noncomputable def normalize_size (size_bytes : ℤ) : ℝ :=
  if size_bytes ≤ 0 then 0
  else
    max 0 (min 1 ((Real.logb 10 (size_bytes : ℝ) - Real.logb 10 1000000) /
      (Real.logb 10 10000000000 - Real.logb 10 1000000)))

end HFAPI

/- ===================================================================
   src/analyze_repo.py : bus factor (compute_local_metrics lines 92-119)
   =================================================================== -/

namespace AnalyzeRepo

open Classical in
/-- Bus factor from the contributor commit-count list parsed out of
`git shortlog -sne` (analyze_repo.py lines 101-117).  When some share
`pi` is `0.0`, Python's `math.log2(pi)` raises `ValueError`, which the
enclosing `except` turns into `0.0`; the inner guard models that.  The
`if max_entropy > 0` guard is the source's own. -/
noncomputable def bus_factor (contrib_counts : List ℕ) : ℝ :=
  let total := contrib_counts.sum
  if 0 < total ∧ 1 < contrib_counts.length then
    if ∀ c ∈ contrib_counts, c ≠ 0 then
      let p := contrib_counts.map (fun c : ℕ => (c : ℝ) / (total : ℝ))
      let entropy := -((p.map (fun pi => pi * Real.logb 2 pi)).sum)
      let maxEntropy := Real.logb 2 (contrib_counts.length : ℝ)
      if 0 < maxEntropy then entropy / maxEntropy else 0
    else 0
  else 0

/-- The claim's own formula (spec section 4.4): Shannon entropy of the
commit-share distribution, normalized by `log2(contributorCount)`.
Stated separately from the embedded code so the two can be compared. -/
noncomputable def specNormalizedEntropy (counts : List ℕ) : ℝ :=
  -((counts.map (fun c : ℕ =>
      ((c : ℝ) / (counts.sum : ℝ)) * Real.logb 2 ((c : ℝ) / (counts.sum : ℝ)))).sum)
    / Real.logb 2 (counts.length : ℝ)

end AnalyzeRepo

/- ===================================================================
   src/genai_readme_analysis.py : LLM response parsing
   =================================================================== -/

namespace Genai

/-- JSON/Python values as they occur in parsed LLM responses and in
the orchestrators' metric dicts: numbers (Python int/float modeled by
exact rationals), strings, `None`/`null`, and nested dicts modeled as
association lists in insertion order. -/
inductive JVal where
  | num (q : ℚ)
  | str (s : String)
  | null
  | dict (entries : List (String × JVal))

/-- Python dict `.get(k)`: `none` when the key is absent. -/
def jget (entries : List (String × JVal)) (k : String) : Option JVal :=
  (entries.find? (fun e => e.1 == k)).map (fun e => e.2)

/-- Python dict `.get(k)` as seen by an `is not None` test: a key
mapped to `null` (Python `None`) is indistinguishable from an absent
key. -/
def jgetVal (entries : List (String × JVal)) (k : String) : Option JVal :=
  match jget entries k with
  | some .null => none
  | r => r

/-- ASCII digit test. -/
def isDigitC (c : Char) : Bool := 48 ≤ c.toNat && c.toNat ≤ 57

/-- Numeric value of a digit list. -/
def digitsVal (ds : List Char) : ℕ := ds.foldl (fun a c => a * 10 + (c.toNat - 48)) 0

/-- Python `float(s)` on a string, for the plain decimal forms
`[sign]digits[.digits]` (with at least one digit); every other string
fails, as `float` does on the non-numeric strings that occur here. -/
def parseDecimal (s : String) : Option ℚ :=
  let signed : Bool × List Char :=
    match s.data with
    | '-' :: rest => (true, rest)
    | '+' :: rest => (false, rest)
    | cs => (false, cs)
  let ip := signed.2.takeWhile (fun c => c != '.')
  let tl := signed.2.drop ip.length
  let fp := tl.drop 1
  if ip.all isDigitC && fp.all isDigitC && !(ip.isEmpty && fp.isEmpty) &&
      !fp.contains '.' then
    let mag : ℚ := (digitsVal ip : ℚ) + (digitsVal fp : ℚ) / ((10 : ℚ) ^ fp.length)
    some (if signed.1 then -mag else mag)
  else none

/-- Python `int(s)` on a string: `[sign]digits` only (no decimal
point). -/
def parseIntStr (s : String) : Option ℤ :=
  let signed : Bool × List Char :=
    match s.data with
    | '-' :: rest => (true, rest)
    | '+' :: rest => (false, rest)
    | cs => (false, cs)
  if signed.2.all isDigitC && !signed.2.isEmpty then
    some (if signed.1 then -(digitsVal signed.2 : ℤ) else (digitsVal signed.2 : ℤ))
  else none

/-- Python `float(v)`: numbers pass through, numeric strings parse,
everything else (None, dicts) raises, modeled as `none`. -/
def pyFloat : JVal → Option ℚ
  | .num q => some q
  | .str s => parseDecimal s
  | .null => none
  | .dict _ => none

/-- Python `int(v)`: floats truncate toward zero, integer strings
parse, everything else raises. -/
def pyInt : JVal → Option ℤ
  | .num q => some (pyTrunc q)
  | .str s => parseIntStr s
  | .null => none
  | .dict _ => none

/-- Python truthiness of a `JVal` (used by `x or 0` expressions). -/
def jTruthy : JVal → Bool
  | .num q => q != 0
  | .str s => s != ""
  | .null => false
  | .dict entries => !entries.isEmpty

/-- Python `str.endswith("_latency")`. -/
def endsWithLatency (k : String) : Bool := "_latency".data.isSuffixOf k.data

/-- The key/value step of `_flatten_metrics` (genai_readme_analysis.py
lines 83-107).  Dict values contribute their coercible `score` and
`latency` components and drop the ones whose coercion raises; every
other value is coerced (`int(round(float(v)))` for `*_latency` keys,
`float(v)` otherwise) and KEPT with its raw value when the coercion
raises (the `except` branches assign `flat[key] = val`). -/
def flattenEntry (key : String) (val : JVal) : List (String × JVal) :=
  match val with
  | .dict d =>
    (match jgetVal d "score" with
     | some sv =>
       match pyFloat sv with
       | some q => [(key, .num q)]
       | none => []
     | none => []) ++
    (match jgetVal d "latency" with
     | some lv =>
       match pyFloat lv with
       | some q => [(key ++ "_latency", .num (pyRound q : ℚ))]
       | none => []
     | none => [])
  | v =>
    if endsWithLatency key then
      match pyFloat v with
      | some q => [(key, .num (pyRound q : ℚ))]
      | none => [(key, v)]
    else
      match pyFloat v with
      | some q => [(key, .num q)]
      | none => [(key, v)]

/-- `_flatten_metrics` (genai_readme_analysis.py lines 80-108) over an
input dict in iteration order. -/
def flatten_metrics (m : List (String × JVal)) : List (String × JVal) :=
  (m.map (fun e => flattenEntry e.1 e.2)).flatten

/-- The opening fence literal of the regex in
`_parse_llm_content_to_json` line 64. -/
def fenceOpen : List Char := "```json\n".data

/-- The closing fence literal. -/
def fenceClose : List Char := "```".data

/-- Lazy capture up to the first occurrence of `pat`: the text matched
by a non-greedy group followed by the literal `pat`, or `none` when
`pat` never occurs. -/
def takeUntil (pat : List Char) : List Char → Option (List Char)
  | [] => none
  | s@(c :: rest) =>
    if pat.isPrefixOf s then some []
    else (takeUntil pat rest).map (fun t => c :: t)

/-- The fenced-block regex search of line 64
(leftmost opening fence that is followed by a closing fence, with a
lazy body). -/
def fencedBlock : List Char → Option (List Char)
  | [] => none
  | s@(_ :: rest) =>
    if fenceOpen.isPrefixOf s then
      match takeUntil fenceClose (s.drop fenceOpen.length) with
      | some body => some body
      | none => fencedBlock rest
    else fencedBlock rest

/-- The raw-object regex search of line 69 on the stripped content:
the pattern anchored at the end matches exactly when the text ends
with a closing brace and contains an opening brace, and the match is
the whole span from the FIRST opening brace to the end of the text. -/
def rawBraceSpan (s : List Char) : Option (List Char) :=
  if s.getLast? == some '}' && s.contains '{' then
    some (s.dropWhile (fun c => c != '{'))
  else none

/-- The extraction half of `_parse_llm_content_to_json` (lines 64-73):
a fenced block if one matches, else the brace span of the stripped
content. -/
def parse_llm_content_extract (content : List Char) : Option (List Char) :=
  match fencedBlock content with
  | some raw => some raw
  | none => rawBraceSpan (PyStr.pyStrip content)

/-- `_parse_llm_content_to_json` (lines 59-77), with `json.loads` (an
external library call) abstracted as the `loads` argument returning
`none` on any parse failure.  An empty extract is falsy (`if not raw`)
and yields `{}`; a load failure yields `{}`. -/
def parse_llm_content_to_json (loads : List Char → Option (List (String × JVal)))
    (content : List Char) : List (String × JVal) :=
  match parse_llm_content_extract content with
  | none => []
  | some [] => []
  | some raw => (loads raw).getD []

end Genai

/- ===================================================================
   src/url_handler.py : handle_input_file
   =================================================================== -/

namespace UrlHandler

open Genai PyStr

/-- One input line after `parse_triple`: `(code_url, dataset_url,
model_url)`. -/
structure Entry where
  code_url : String
  dataset_url : String
  model_url : String

/-- Modelled from the spec: `hf.get_license_info` is called by
`handle_input_file` (url_handler.py line 99) but is defined nowhere in
the repository (the tests patch the whole `hf` module).  Per spec
section 4.2 the license classifier returns a license identifier and a
0/1 compatibility score and never raises; `license_latency` is the
fetch latency in seconds that line 104 scales to milliseconds. -/
structure LicenseInfo where
  lgplv21_compat_score : ℤ
  license_latency : ℚ

/-- The per-entry results of the external stages `handle_input_file`
invokes.  The size-computation block (lines 130-186) is wrapped whole
in `try/except` with a `None` fallback, so it is represented by its
outcome; `analyze_metrics` (line 189) is NOT wrapped, so its outcome
is an `Except` whose error propagates. -/
structure UEnv where
  license_info : LicenseInfo
  size_score : Option (List (String × ℚ))
  size_score_latency : ℤ
  genai : Except String (List (String × JVal))

/-- The URL prefix tested throughout `url_handler.py`. -/
def hfUrlStart : List Char := "https://huggingface.co/".data

/-- The inner `extract_model_id` (url_handler.py lines 76-87): like
the HF_API_Integration one but with `strip()` only (no comma strip). -/
def uhExtractModelId (url : String) : String :=
  let s := pyStripS url
  if hfUrlStart.isPrefixOf s.data then
    let parts := (pySplit '/' (s.data.drop hfUrlStart.length)).filter (fun p => !p.isEmpty)
    match parts with
    | p0 :: p1 :: _ => ⟨p0 ++ '/' :: p1⟩
    | [p0] => ⟨p0⟩
    | [] => s
  else s

/-- `extract_model_name` (url_handler.py lines 109-122). -/
def extract_model_name (url : String) : String :=
  let s := pyStripS url
  if hfUrlStart.isPrefixOf s.data then
    let parts := (pySplit '/' (s.data.drop hfUrlStart.length)).filter (fun p => !p.isEmpty)
    match parts with
    | _ :: p1 :: _ => ⟨p1⟩
    | [p0] => ⟨p0⟩
    | [] => s
  else
    let parts := pySplit '/' s.data
    let lastP := (parts.getLast?).getD []
    if pyLower ⟨lastP⟩ == "main" && parts.length > 1 then
      ⟨parts.getD (parts.length - 2) []⟩
    else ⟨lastP⟩

/-- Python dict assignment `d[k] = v` on an association list. -/
def jset (entries : List (String × JVal)) (k : String) (v : JVal) :
    List (String × JVal) :=
  if (entries.find? (fun e => e.1 == k)).isSome then
    entries.map (fun e => if e.1 == k then (k, v) else e)
  else entries ++ [(k, v)]

/-- The keys assembled into `rec` before the passthrough loop
(url_handler.py lines 233-262); the loop's `if k in rec` test checks
against exactly these. -/
def recKeys : List String :=
  ["name", "category", "license", "license_latency", "bus_factor",
   "bus_factor_latency", "dataset_quality", "dataset_quality_latency",
   "code_quality", "code_quality_latency", "dataset_and_code_score",
   "dataset_and_code_score_latency", "size_score", "size_score_latency"]

/-- `int(round(float(v)))`, raising (as at url_handler.py lines 239,
241, 243) when the float conversion raises. -/
def coerceLatency (v : JVal) : Except String JVal :=
  match pyFloat v with
  | some q => .ok (.num (pyRound q : ℚ))
  | none => .error "TypeError"

/-- `int(round(float(v)))` under `try/except` keeping the raw value
(the passthrough loop, lines 267-271). -/
def coerceLatencyOr (v : JVal) : JVal :=
  match pyFloat v with
  | some q => .num (pyRound q : ℚ)
  | none => v

/-- `float(metrics.get(dev, 0.0) or 0.0)` (lines 252-255), raising on
a non-coercible truthy value. -/
def devDefault (metrics : List (String × JVal)) (dev : String) : Except String ℚ :=
  let v := (jget metrics dev).getD (.num 0)
  let v := if jTruthy v then v else .num 0
  match pyFloat v with
  | some q => .ok q
  | none => .error "TypeError"

/-- The size-merge step of the per-entry loop (url_handler.py lines
197-202): a missing or non-dict `size_score` in the GenAI metrics is
replaced by the hf_model_size one, and a falsy `size_score_latency` by
the measured one. -/
def mergeSize (env : UEnv) (metrics : List (String × JVal)) : List (String × JVal) :=
  let m1 := match jget metrics "size_score" with
    | some (.dict _) => metrics
    | _ =>
      match env.size_score with
      | some sc => jset metrics "size_score" (.dict (sc.map (fun p => (p.1, JVal.num p.2))))
      | none => metrics
  if jTruthy ((jget m1 "size_score_latency").getD .null) then m1
  else jset m1 "size_score_latency" (.num (env.size_score_latency : ℚ))

/-- The record-assembly half of the per-entry loop (url_handler.py
lines 204-274), taking the merged metrics dict. -/
def assembleRecordU (env : UEnv) (e : Entry) (metrics : List (String × JVal)) :
    Except String (List (String × JVal)) := do
  let code_url := if e.code_url ≠ "" then pyStripS e.code_url else ""
  let dataset_url := if e.dataset_url ≠ "" then pyStripS e.dataset_url else ""
  let model_url := if e.model_url ≠ "" then pyStripS e.model_url else ""
  let compat_score := env.license_info.lgplv21_compat_score
  let license_latency : ℤ := pyRound (env.license_info.license_latency * 1000)
  let name := extract_model_name model_url
  -- lines 204-210
  let dacs : ℚ := if code_url ≠ "" ∨ dataset_url ≠ "" then 1 else 0
  -- lines 211-222: defaults for absent/None metrics
  let dq0 := (jgetVal metrics "dataset_quality").getD (.num 0)
  let cq0 := (jgetVal metrics "code_quality").getD (.num 0)
  let dql0 := (jgetVal metrics "dataset_quality_latency").getD (.num 0)
  let cql0 := (jgetVal metrics "code_quality_latency").getD (.num 0)
  -- lines 228-232: round dataset_quality, keeping it raw if float fails
  let dq := match pyFloat dq0 with
    | some q => JVal.num (roundTo3 q)
    | none => dq0
  -- line 239 (conditional on key presence) and lines 241, 243
  let busFactorLat ← match jget metrics "bus_factor_latency" with
    | none => Except.ok JVal.null
    | some v => coerceLatency v
  let dqlat ← coerceLatency dql0
  let cqlat ← coerceLatency cql0
  let rec0 : List (String × JVal) :=
    [("name", .str name), ("category", .str "MODEL"),
     ("license", .num (if compat_score ≠ 0 then 1 else 0)),
     ("license_latency", .num (license_latency : ℚ)),
     ("bus_factor", (jget metrics "bus_factor").getD .null),
     ("bus_factor_latency", busFactorLat),
     ("dataset_quality", dq),
     ("dataset_quality_latency", dqlat),
     ("code_quality", cq0),
     ("code_quality_latency", cqlat),
     ("dataset_and_code_score", .num dacs),
     ("dataset_and_code_score_latency", .num 1)]
  -- lines 247-262: size_score always present
  let sizeScoreJ ← match jget metrics "size_score" with
    | some (.dict d) => Except.ok (JVal.dict d)
    | _ => do
      let rp ← devDefault metrics "raspberry_pi"
      let jn ← devDefault metrics "jetson_nano"
      let dp ← devDefault metrics "desktop_pc"
      let aw ← devDefault metrics "aws_server"
      Except.ok (JVal.dict [("raspberry_pi", .num rp), ("jetson_nano", .num jn),
                            ("desktop_pc", .num dp), ("aws_server", .num aw)])
  let sizeLat : ℤ := match pyFloat ((jget metrics "size_score_latency").getD (.num 0)) with
    | some q => pyRound q
    | none => 0
  let rec1 := rec0 ++ [("size_score", sizeScoreJ), ("size_score_latency", .num (sizeLat : ℚ))]
  -- lines 263-273: remaining GenAI metrics pass through
  let extras := (metrics.filter (fun kv => !(recKeys.contains kv.1))).map
    (fun kv => if endsWithLatency kv.1 then (kv.1, coerceLatencyOr kv.2) else kv)
  pure (rec1 ++ extras)

/-- The body of `handle_input_file`'s per-entry loop (url_handler.py
lines 89-274): the (spec-modelled) license fetch and the size block
cannot raise; `analyze_metrics` (line 189) is not wrapped, so its
error propagates; the rest assembles the flat record. -/
def processEntryU (env : UEnv) (e : Entry) : Except String (List (String × JVal)) := do
  let metrics ← env.genai
  assembleRecordU env e (mergeSize env metrics)

/-- `handle_input_file` (url_handler.py lines 66-275) over the parsed
triples, each paired with its per-entry external outcomes.  The
per-entry loop has no `try/except`, so the first error loses the whole
result list. -/
def handle_input_file : List (Entry × UEnv) → Except String (List (List (String × JVal)))
  | [] => .ok []
  | (e, env) :: rest => do
    let r ← processEntryU env e
    let rs ← handle_input_file rest
    pure (r :: rs)

end UrlHandler

/- ===================================================================
   src/collect_ndjson.py : collect_and_write
   =================================================================== -/

namespace CollectNdjson

open Genai PyStr

/-- One input model entry of `collect_and_write`: either a bare model
reference or the `(code, dataset, model)` triple (lines 167-172). -/
structure Entry where
  code_url : String
  dataset_url : String
  model_url : String

/-- The fields of a successful `get_huggingface_model_metadata` result
that `fetch_model_metrics` reads (HF_API_Integration.py lines 110-132). -/
structure HFMetaData where
  model_id : String
  downloads : ℤ
  likes : ℤ

/-- `fetch_model_metrics` (HF_API_Integration.py lines 135-173), with
the registry fetch outcome supplied as `meta` and wall-clock latencies
modeled as 0.  A failed fetch for a model reference containing
"nonexistent" returns `None`. -/
def fetch_model_metrics (meta : Option HFMetaData) (model_id : String) :
    Option (List (String × JVal)) :=
  let mid := HFAPI.extract_model_id_s model_id
  match meta with
  | none =>
    if containsSub "nonexistent".data (pyLower mid).data then none
    else some [("model_id", .str mid), ("downloads", .num 0), ("likes", .num 0),
               ("downloads_norm", .num 0), ("likes_norm", .num 0), ("latency", .num 0)]
  | some m =>
    let dn := roundTo2 (min 1 (max 0 ((m.downloads : ℚ) / 1000000)))
    let ln := roundTo2 (min 1 (max 0 ((m.likes : ℚ) / 10000)))
    some [("model_id", .str m.model_id), ("downloads", .num (m.downloads : ℚ)),
          ("likes", .num (m.likes : ℚ)),
          ("downloads_norm", .num dn), ("likes_norm", .num ln), ("latency", .num 0)]

/-- The placeholder tokens of line 183. -/
def placeholders : List String := ["none", "null", "na", "n/a", "-"]

/-- The dataset-registry URL prefix of lines 186, 229. -/
def dsUrlStart : List Char := "https://huggingface.co/datasets/".data

/-- The `startswith("http")` prefix of lines 227, 242. -/
def httpStart : List Char := "http".data

/-- Per-entry outcomes of the external stages `collect_and_write`
invokes.  Every stage here is called inside `try/except` (or is total
in the source), so errors degrade rather than propagate; the record
assembly afterwards is not protected. -/
structure CEnv where
  readme : Except String String
  hfMeta : Option HFMetaData
  genaiAvailable : Bool
  genaiMetrics : Except String (List (String × JVal))
  genaiDiscoverUrl : Except String (Option String)
  hfFallbackUrl : String
  dsQuality : Except String (List (String × JVal))

/-- `_round2` (collect_ndjson.py lines 157-165): Python floats are
rounded to 2 places, ints and everything else pass through (rounding
to 2 places fixes integer-valued rationals, so one numeric case is
faithful for both). -/
def round2JV : JVal → JVal
  | .num q => .num (roundTo2 q)
  | v => v

/-- Result of one iteration of `collect_and_write`'s model loop: the
assembled record (or the uncaught exception), plus whether the GenAI
dataset-discovery step and the HF card/tag-scan discovery step were
invoked. -/
structure CResult where
  record : Except String (List (String × JVal))
  genaiDiscoveryCalled : Bool
  hfDiscoveryCalled : Bool
  datasetUrlUsed : String

/-- The LLM-metrics stage (collect_ndjson.py lines 198-209): only
called when the import succeeded, and caught. -/
def genaiDict (env : CEnv) : List (String × JVal) :=
  if env.genaiAvailable then
    match env.genaiMetrics with | .ok m => m | .error _ => []
  else []

/-- The dataset-quality stage (collect_ndjson.py lines 242-247): only
fetched for a nonempty http dataset URL, and caught. -/
def dsqDict (env : CEnv) (ds3 : String) : List (String × JVal) :=
  if ds3 ≠ "" ∧ httpStart.isPrefixOf ds3.data then
    match env.dsQuality with | .ok d => d | .error _ => []
  else []

/-- The record assembly of `collect_and_write` (lines 249-290) given
the LLM metrics dict and the dataset-quality dict; `hf.get(...)` on a
`None` result of `fetch_model_metrics` raises AttributeError,
uncaught. -/
def buildRecordC (env : CEnv) (e : Entry)
    (genai dsq : List (String × JVal)) : Except String (List (String × JVal)) :=
  match fetch_model_metrics env.hfMeta e.model_url with
  | none => .error "AttributeError"
  | some hfd =>
    let midv := (jget hfd "model_id").getD (.str e.model_url)
    let mids := match midv with | .str s => s | _ => ""
    let name : String := ⟨((pySplit '/' mids.data).getLast?).getD []⟩
    -- lines 259-272: GenAI passthrough for the supported keys
    let rec1 := [("name", JVal.str name), ("category", JVal.str "MODEL")] ++
      (["ramp_up_time", "performance_claims", "dataset_and_code_score"].map (fun k =>
        (match jget genai k with
         | some v => [(k, round2JV v)]
         | none => []) ++
        (match jget genai (k ++ "_latency") with
         | some v =>
           match pyInt v with
           | some n => [(k ++ "_latency", JVal.num (n : ℚ))]
           | none => []
         | none => []))).flatten
    -- lines 274-287: HF dataset_quality preferred over the GenAI one
    match jgetVal dsq "dataset_quality" with
    | some v =>
      let base := rec1 ++ [("dataset_quality", round2JV v)]
      match jgetVal dsq "dataset_quality_latency" with
      | some lv =>
        -- line 278: int applied to `dsq.get(...) or 0`, not wrapped: can raise
        let lv := if jTruthy lv then lv else .num 0
        match pyInt lv with
        | some n => .ok (base ++ [("dataset_quality_latency", JVal.num (n : ℚ))])
        | none => .error "TypeError"
      | none => .ok base
    | none =>
      match jgetVal genai "dataset_quality" with
      | some v =>
        let base := rec1 ++ [("dataset_quality", round2JV v)]
        match jgetVal genai "dataset_quality_latency" with
        | some lv =>
          -- lines 282-286: wrapped in try/except pass
          match pyInt lv with
          | some n => .ok (base ++ [("dataset_quality_latency", JVal.num (n : ℚ))])
          | none => .ok base
        | none => .ok base
      | none => .ok rec1

/-- The body of `collect_and_write`'s model loop (collect_ndjson.py
lines 167-290). -/
def processEntryC (env : CEnv) (e : Entry) : CResult :=
  -- lines 174-180: README fetch, caught
  let _readme : String := match env.readme with | .ok s => s | .error _ => ""
  -- lines 181-191: placeholder and non-registry dataset links cleared
  let raw := pyStripS e.dataset_url
  let ds1 : String :=
    if raw ≠ "" ∧ placeholders.contains (pyLower raw) then ""
    else if raw ≠ "" ∧ ¬(dsUrlStart.isPrefixOf raw.data) then ""
    else raw
  -- lines 213-233: GenAI dataset discovery only when no dataset URL
  let genaiCalled := ds1 == "" && env.genaiAvailable
  let ds2 : String :=
    if ds1 = "" then
      let discovered : String :=
        if env.genaiAvailable then
          match env.genaiDiscoverUrl with
          | .ok (some u) => pyStripS u
          | _ => ""
        else ""
      if discovered ≠ "" then
        let discovered :=
          if ¬(httpStart.isPrefixOf discovered.data) ∧ discovered.data.contains '/' then
            (⟨dsUrlStart ++ discovered.data⟩ : String)
          else discovered
        if dsUrlStart.isPrefixOf discovered.data then discovered else ""
      else ""
    else ds1
  -- lines 234-241: HF card/tag fallback only when still no dataset URL
  let hfCalled := ds2 == ""
  let ds3 := if ds2 = "" then env.hfFallbackUrl else ds2
  ⟨buildRecordC env e (genaiDict env) (dsqDict env ds3), genaiCalled, hfCalled, ds3⟩

/-- `collect_and_write`'s model loop over the batch (lines 167-290):
records written to stdout before an uncaught exception, and the
exception if one escaped (aborting the remaining entries). -/
def collect_and_write : List (Entry × CEnv) → List (List (String × JVal)) × Option String
  | [] => ([], none)
  | (e, env) :: rest =>
    match (processEntryC env e).record with
    | .error msg => ([], some msg)
    | .ok r =>
      let p := collect_and_write rest
      (r :: p.1, p.2)

end CollectNdjson

/-- A concrete `handle_input_file` entry with empty URLs, to evaluate
the per-entry loop on a closed input. -/
def sampleUEntry : UrlHandler.Entry := ⟨"", "", ""⟩

/-- Concrete stage outcomes for `sampleUEntry`: a compatible license,
no size result, and an LLM call that returned no metrics. -/
def sampleUEnv : UrlHandler.UEnv := ⟨⟨1, 0⟩, none, 1, .ok []⟩

/-- The record `handle_input_file` assembles for `sampleUEntry`. -/
def sampleURecord : List (String × Genai.JVal) :=
  match UrlHandler.processEntryU sampleUEnv sampleUEntry with
  | .ok r => r
  | .error _ => []

/-- A concrete `collect_and_write` entry with a bare model reference. -/
def sampleCEntry : CollectNdjson.Entry := ⟨"", "", "m"⟩

/-- Concrete stage outcomes for `sampleCEntry`: registry metadata
present, LLM metrics empty, no dataset discovered anywhere. -/
def sampleCEnv : CollectNdjson.CEnv :=
  ⟨.ok "", some ⟨"m", 0, 0⟩, true, .ok [], .ok none, "", .ok []⟩

/-- The record `collect_and_write` assembles for `sampleCEntry`. -/
def sampleCRecord : List (String × Genai.JVal) :=
  match (CollectNdjson.processEntryC sampleCEnv sampleCEntry).record with
  | .ok r => r
  | .error _ => []

/- ===================================================================
   Theorems
   =================================================================== -/

/-- Claim C7 counterexample: a list of exactly 4 meaningful tags
scores 0.8 in the code, not the 0.9 the claim states. -/
theorem score_tags_four_tags_counterexample :
    HFAPI.score_tags ["a", "b", "c", "d"] = 0.8 ∧ (0.8 : ℚ) ≠ 0.9 := by
  constructor
  · rfl
  · norm_num

/-- Claim C7 (amended): tag-richness scoring after stripping
falsy/empty entries is 0 for 0 meaningful tags, 0.5 for 1-2, 0.8 for
3-4 (not 0.9 for exactly 4), and 1.0 for 5 or more. -/
theorem score_tags_bands (tags : List String) :
    ((tags.filter (fun t => t ≠ "")).length = 0 → HFAPI.score_tags tags = 0) ∧
    (1 ≤ (tags.filter (fun t => t ≠ "")).length →
      (tags.filter (fun t => t ≠ "")).length ≤ 2 → HFAPI.score_tags tags = 0.5) ∧
    (3 ≤ (tags.filter (fun t => t ≠ "")).length →
      (tags.filter (fun t => t ≠ "")).length ≤ 4 → HFAPI.score_tags tags = 0.8) ∧
    (5 ≤ (tags.filter (fun t => t ≠ "")).length → HFAPI.score_tags tags = 1) := by
  refine ⟨?_, ?_, ?_, ?_⟩ <;>
    (intros; simp only [HFAPI.score_tags]; split_ifs <;> first | rfl | omega)

/-- Witness for `score_tags_bands` at a concrete 3-tag list. -/
theorem score_tags_bands_witness : HFAPI.score_tags ["a", "b", "c"] = 0.8 :=
  (score_tags_bands ["a", "b", "c"]).2.2.1 (by decide) (by decide)

/-- Claim C2 counterexample: the per-device scores of
`hf_model_size.calculate_size_metric` (also cited by the claim) come
from the linear formula `round(max(0, 1 - ratio), 3)`, not the ratio
bands: a 512 MB artifact against the 1 GB raspberry_pi capacity
(ratio 0.5) scores 0.5, which is none of the six band values (the
bands would give 0.85). -/
theorem calculate_size_metric_not_banded :
    HFModelSize.calculate_size_metric_scores ⟨false, 512 * 1024 ^ 2⟩ =
      some [("raspberry_pi", 0.5), ("jetson_nano", 0.875),
            ("desktop_pc", 0.969), ("aws_server", 0.984)] ∧
    ((0.5 : ℚ) ≠ 1 ∧ (0.5 : ℚ) ≠ 0.85 ∧ (0.5 : ℚ) ≠ 0.70 ∧
     (0.5 : ℚ) ≠ 0.40 ∧ (0.5 : ℚ) ≠ 0.20 ∧ (0.5 : ℚ) ≠ 0) := by
  constructor
  · have h1 : HFModelSize.deviceScore (512 * 1024 ^ 2) (1 * 1024 ^ 3) = 0.5 := by
      norm_num [HFModelSize.deviceScore, roundTo3, pyRound, max_def]
    have h2 : HFModelSize.deviceScore (512 * 1024 ^ 2) (4 * 1024 ^ 3) = 0.875 := by
      norm_num [HFModelSize.deviceScore, roundTo3, pyRound, max_def]
    have h3 : HFModelSize.deviceScore (512 * 1024 ^ 2) (16 * 1024 ^ 3) = 0.969 := by
      norm_num [HFModelSize.deviceScore, roundTo3, pyRound, max_def]
    have h4 : HFModelSize.deviceScore (512 * 1024 ^ 2) (32 * 1024 ^ 3) = 0.984 := by
      norm_num [HFModelSize.deviceScore, roundTo3, pyRound, max_def]
    simp only [HFModelSize.calculate_size_metric_scores,
      HFModelSize.CANONICAL_CONSTRAINTS, List.map]
    norm_num at h1 h2 h3 h4 ⊢
    exact ⟨h1, h2, h3, h4⟩
  · norm_num

/-- Claim C2 (amended): the band-based scorer `_compat_from_capacity`
satisfies the claim exactly: zero for nonpositive size or capacity,
and otherwise one of the six band values selected by `ratio = s/C`
(`calculate_size_metric`, cited alongside it, uses the linear formula
instead — see the counterexample). -/
theorem compat_from_capacity_bands :
    (∀ s C : ℤ, s ≤ 0 → HFAPI.compat_from_capacity s C = 0) ∧
    (∀ s C : ℤ, C ≤ 0 → HFAPI.compat_from_capacity s C = 0) ∧
    (∀ s C : ℤ, 0 < s → 0 < C →
      HFAPI.compat_from_capacity s C ∈ [(1 : ℚ), 0.85, 0.70, 0.40, 0.20, 0] ∧
      ((s : ℚ) / (C : ℚ) ≤ 0.25 → HFAPI.compat_from_capacity s C = 1) ∧
      (0.25 < (s : ℚ) / (C : ℚ) → (s : ℚ) / (C : ℚ) ≤ 0.5 →
        HFAPI.compat_from_capacity s C = 0.85) ∧
      (0.5 < (s : ℚ) / (C : ℚ) → (s : ℚ) / (C : ℚ) ≤ 1 →
        HFAPI.compat_from_capacity s C = 0.70) ∧
      (1 < (s : ℚ) / (C : ℚ) → (s : ℚ) / (C : ℚ) ≤ 2 →
        HFAPI.compat_from_capacity s C = 0.40) ∧
      (2 < (s : ℚ) / (C : ℚ) → (s : ℚ) / (C : ℚ) ≤ 4 →
        HFAPI.compat_from_capacity s C = 0.20) ∧
      (4 < (s : ℚ) / (C : ℚ) → HFAPI.compat_from_capacity s C = 0)) := by
  refine ⟨?_, ?_, ?_⟩
  · intro s C h
    simp [HFAPI.compat_from_capacity, h]
  · intro s C h
    by_cases hs : s ≤ 0 <;> simp [HFAPI.compat_from_capacity, h, hs]
  · intro s C hs hC
    have hs' : ¬s ≤ 0 := by omega
    have hC' : ¬C ≤ 0 := by omega
    refine ⟨?_, ?_, ?_, ?_, ?_, ?_, ?_⟩
    · simp only [HFAPI.compat_from_capacity, if_neg hs', if_neg hC']
      split_ifs <;> simp
    all_goals
      (intros
       simp only [HFAPI.compat_from_capacity, if_neg hs', if_neg hC']
       split_ifs <;> first | rfl | linarith)

/-- Witness for `compat_from_capacity_bands`: a 1-byte artifact on a
4-byte capacity sits in the first band. -/
theorem compat_from_capacity_bands_witness :
    HFAPI.compat_from_capacity 1 4 = 1 :=
  ((compat_from_capacity_bands.2.2 1 4 (by decide) (by decide)).2.1 (by norm_num))

/-- Claim C3: license extraction order — a usable top-level license
wins; otherwise `cardData.license` (string, or first element of a
list); otherwise "unknown"; and the stated concrete input resolves to
"Apache-2.0" with compatibility 1. -/
theorem license_extraction_order :
    (∀ (d : LicenseCompat.RegistryData) (s : String),
      d.license = some s → s ≠ "" → s ≠ "unknown" →
      LicenseCompat.extract_license d = s) ∧
    (∀ (d : LicenseCompat.RegistryData),
      (d.license = none ∨ d.license = some "" ∨ d.license = some "unknown") →
      ∀ cd, d.cardData = some cd →
        ((∀ s, cd.license = some (.str s) → LicenseCompat.extract_license d = s) ∧
         (∀ h t, cd.license = some (.list (h :: t)) →
           LicenseCompat.extract_license d = h) ∧
         ((cd.license = none ∨ cd.license = some (.list [])) →
           LicenseCompat.extract_license d = "unknown"))) ∧
    (∀ (d : LicenseCompat.RegistryData),
      (d.license = none ∨ d.license = some "" ∨ d.license = some "unknown") →
      d.cardData = none → LicenseCompat.extract_license d = "unknown") ∧
    (LicenseCompat.extract_license
        ⟨some "unknown", some ⟨some (.list ["Apache-2.0", "MIT"])⟩⟩ = "Apache-2.0" ∧
     LicenseCompat.is_lgpl_compatible "Apache-2.0" = 1) := by
  refine ⟨?_, ?_, ?_, ?_, ?_⟩
  · intro d s hd hne hunk
    simp [LicenseCompat.extract_license, hd, hne, hunk]
  · intro d hd cd hcd
    refine ⟨?_, ?_, ?_⟩
    · intro s hs
      rcases hd with h | h | h <;>
        simp [LicenseCompat.extract_license, h, hcd,
          LicenseCompat.extract_license.extractFromCard, hs]
    · intro h t hs
      rcases hd with hh | hh | hh <;>
        simp [LicenseCompat.extract_license, hh, hcd,
          LicenseCompat.extract_license.extractFromCard, hs]
    · intro hs
      rcases hd with hh | hh | hh <;> rcases hs with hs | hs <;>
        simp [LicenseCompat.extract_license, hh, hcd,
          LicenseCompat.extract_license.extractFromCard, hs]
  · intro d hd hcd
    rcases hd with h | h | h <;>
      simp [LicenseCompat.extract_license, h, hcd,
        LicenseCompat.extract_license.extractFromCard]
  · decide
  · decide

/-- Witness for `license_extraction_order` at concrete inputs for the
hypothesis-bearing conjuncts. -/
theorem license_extraction_order_witness :
    LicenseCompat.extract_license ⟨some "MIT", none⟩ = "MIT" :=
  license_extraction_order.1 ⟨some "MIT", none⟩ "MIT" rfl (by decide) (by decide)

/- Helper lemmas for the string canonicalizer (claim C10). -/

namespace PyStr

theorem pySplit_ne_nil (sep : Char) (l : List Char) : pySplit sep l ≠ [] := by
  induction l with
  | nil => simp [pySplit]
  | cons c cs ih =>
    simp only [pySplit]
    split
    · simp
    · split
      · simp
      · simp

theorem pySplit_append_sep (sep : Char) (a b : List Char) (ha : sep ∉ a) :
    pySplit sep (a ++ sep :: b) = a :: pySplit sep b := by
  induction a with
  | nil => simp [pySplit]
  | cons c a ih =>
    have hc : (c == sep) = false := by
      simp only [beq_eq_false_iff_ne, ne_eq]
      intro h; exact ha (h ▸ List.mem_cons_self c a)
    have ha' : sep ∉ a := fun h => ha (List.mem_cons_of_mem c h)
    simp only [List.cons_append, pySplit, hc, Bool.false_eq_true, if_false,
      List.append_eq, ih ha']

theorem pySplit_no_sep (sep : Char) (a : List Char) (ha : sep ∉ a) :
    pySplit sep a = [a] := by
  induction a with
  | nil => rfl
  | cons c a ih =>
    have hc : (c == sep) = false := by
      simp only [beq_eq_false_iff_ne, ne_eq]
      intro h; exact ha (h ▸ List.mem_cons_self c a)
    have ha' : sep ∉ a := fun h => ha (List.mem_cons_of_mem c h)
    simp only [pySplit, hc, Bool.false_eq_true, if_false, ih ha']

theorem mem_of_mem_pySplit {sep : Char} {l part : List Char} {c : Char}
    (hp : part ∈ pySplit sep l) (hc : c ∈ part) : c ∈ l := by
  induction l generalizing part with
  | nil =>
    simp only [pySplit, List.mem_singleton] at hp
    subst hp; exact absurd hc (List.not_mem_nil c)
  | cons x xs ih =>
    by_cases hx : x = sep
    · subst hx
      simp only [pySplit, beq_self_eq_true, if_true] at hp
      rcases List.mem_cons.mp hp with hp | hp
      · subst hp; exact absurd hc (List.not_mem_nil c)
      · exact List.mem_cons_of_mem _ (ih hp hc)
    · have hxb : (x == sep) = false := beq_eq_false_iff_ne.mpr hx
      simp only [pySplit, hxb, Bool.false_eq_true, if_false] at hp
      rcases hsp : pySplit sep xs with _ | ⟨y, ys⟩
      · exact absurd hsp (pySplit_ne_nil sep xs)
      · rw [hsp] at hp
        rcases List.mem_cons.mp hp with hp | hp
        · subst hp
          rcases List.mem_cons.mp hc with hc | hc
          · rw [hc]; exact List.mem_cons_self x xs
          · exact List.mem_cons_of_mem _
              (ih (by rw [hsp]; exact List.mem_cons_self y ys) hc)
        · exact List.mem_cons_of_mem _
            (ih (by rw [hsp]; exact List.mem_cons_of_mem y hp) hc)

theorem sep_not_mem_pySplit {sep : Char} {l part : List Char}
    (hp : part ∈ pySplit sep l) : sep ∉ part := by
  induction l generalizing part with
  | nil =>
    simp only [pySplit, List.mem_singleton] at hp
    subst hp; exact List.not_mem_nil sep
  | cons x xs ih =>
    by_cases hx : x = sep
    · subst hx
      simp only [pySplit, beq_self_eq_true, if_true] at hp
      rcases List.mem_cons.mp hp with hp | hp
      · subst hp; exact List.not_mem_nil x
      · exact ih hp
    · have hxb : (x == sep) = false := beq_eq_false_iff_ne.mpr hx
      simp only [pySplit, hxb, Bool.false_eq_true, if_false] at hp
      rcases hsp : pySplit sep xs with _ | ⟨y, ys⟩
      · exact absurd hsp (pySplit_ne_nil sep xs)
      · rw [hsp] at hp
        rcases List.mem_cons.mp hp with hp | hp
        · subst hp
          intro hmem
          rcases List.mem_cons.mp hmem with hmem | hmem
          · exact hx hmem.symm
          · exact ih (by rw [hsp]; exact List.mem_cons_self y ys) hmem
        · exact ih (by rw [hsp]; exact List.mem_cons_of_mem y hp)

theorem stripLeft_eq_self {s : List Char} (h : ∀ c ∈ s, pySpace c = false) :
    stripLeft s = s := by
  cases s with
  | nil => rfl
  | cons c cs =>
    simp [stripLeft, List.dropWhile_cons, h c (List.mem_cons_self c cs)]

theorem stripRight_eq_self {s : List Char} (h : ∀ c ∈ s, pySpace c = false) :
    stripRight s = s := by
  unfold stripRight
  have hrev : s.reverse.dropWhile pySpace = s.reverse := by
    cases hs : s.reverse with
    | nil => rfl
    | cons c cs =>
      have hc : c ∈ s := by
        rw [← List.mem_reverse, hs]; exact List.mem_cons_self c cs
      simp [List.dropWhile_cons, h c hc]
  rw [hrev, List.reverse_reverse]

theorem stripRight_append_slash (a b : List Char) :
    stripRight ((a ++ ['/']) ++ b) = (a ++ ['/']) ++ stripRight b := by
  unfold stripRight
  rw [List.reverse_append, List.dropWhile_append]
  have hsl : pySpace '/' = false := by decide
  split
  · next hemp =>
    have hb : (b.reverse.dropWhile pySpace) = [] := by simpa using hemp
    simp [List.reverse_append, hb, List.dropWhile_cons, hsl]
  · next hemp =>
    simp [List.reverse_append, List.dropWhile_cons, hsl]

end PyStr

theorem count_slash_hfUrlStart : List.count '/' HFAPI.hfUrlStart = 3 := by decide

theorem extract_model_id_fix (r : List Char)
    (h : ∀ c ∈ r, PyStr.pySpace c = false ∧ c ≠ ',')
    (hcnt : List.count '/' r ≤ 1) :
    HFAPI.extract_model_id r = r := by
  have hstrip : PyStr.pyStrip r = r := by
    unfold PyStr.pyStrip
    rw [PyStr.stripLeft_eq_self (fun c hc => (h c hc).1),
        PyStr.stripRight_eq_self (fun c hc => (h c hc).1)]
  have hcomma : PyStr.lstripComma r = r := by
    cases r with
    | nil => rfl
    | cons c cs =>
      have hc := (h c (List.mem_cons_self c cs)).2
      have : (c == ',') = false := beq_eq_false_iff_ne.mpr hc
      simp [PyStr.lstripComma, List.dropWhile_cons, this]
  have hpre : HFAPI.hfUrlStart.isPrefixOf r = false := by
    by_contra hcon
    have : HFAPI.hfUrlStart.isPrefixOf r = true := by
      cases hb : HFAPI.hfUrlStart.isPrefixOf r
      · exact absurd hb hcon
      · rfl
    obtain ⟨t, ht⟩ := List.isPrefixOf_iff_prefix.mp this
    rw [← ht, List.count_append, count_slash_hfUrlStart] at hcnt
    omega
  unfold HFAPI.extract_model_id
  simp only [hstrip, hcomma, hpre, Bool.false_eq_true, if_false]

theorem extract_model_id_idem_aux (s : List Char)
    (h : ∀ c ∈ s, PyStr.pySpace c = false ∧ c ≠ ',') :
    HFAPI.extract_model_id (HFAPI.extract_model_id s) = HFAPI.extract_model_id s := by
  have hstrip : PyStr.pyStrip s = s := by
    unfold PyStr.pyStrip
    rw [PyStr.stripLeft_eq_self (fun c hc => (h c hc).1),
        PyStr.stripRight_eq_self (fun c hc => (h c hc).1)]
  have hcomma : PyStr.lstripComma s = s := by
    cases s with
    | nil => rfl
    | cons c cs =>
      have hc := (h c (List.mem_cons_self c cs)).2
      have : (c == ',') = false := beq_eq_false_iff_ne.mpr hc
      simp [PyStr.lstripComma, List.dropWhile_cons, this]
  by_cases hpre : HFAPI.hfUrlStart.isPrefixOf s = true
  · rcases hparts : (PyStr.pySplit '/' (s.drop HFAPI.hfUrlStart.length)).filter
        (fun p => !p.isEmpty) with _ | ⟨p0, ps⟩
    · have hfs : HFAPI.extract_model_id s = s := by
        unfold HFAPI.extract_model_id
        simp only [hstrip, hcomma, hpre, hparts, if_true]
      rw [hfs]; exact hfs
    · have hmem0 : p0 ∈ PyStr.pySplit '/' (s.drop HFAPI.hfUrlStart.length) :=
        List.mem_of_mem_filter (hparts ▸ List.mem_cons_self p0 ps)
      have hchars0 : ∀ c ∈ p0, PyStr.pySpace c = false ∧ c ≠ ',' := fun c hc =>
        h c (List.mem_of_mem_drop (PyStr.mem_of_mem_pySplit hmem0 hc))
      have hsep0 : '/' ∉ p0 := PyStr.sep_not_mem_pySplit hmem0
      rcases ps with _ | ⟨p1, pss⟩
      · have hfs : HFAPI.extract_model_id s = p0 := by
          unfold HFAPI.extract_model_id
          simp only [hstrip, hcomma, hpre, hparts, if_true]
        rw [hfs]
        exact extract_model_id_fix p0 hchars0
          (by rw [List.count_eq_zero.mpr hsep0]; omega)
      · have hmem1 : p1 ∈ PyStr.pySplit '/' (s.drop HFAPI.hfUrlStart.length) :=
          List.mem_of_mem_filter (hparts ▸ List.mem_cons_of_mem p0 (List.mem_cons_self p1 pss))
        have hchars1 : ∀ c ∈ p1, PyStr.pySpace c = false ∧ c ≠ ',' := fun c hc =>
          h c (List.mem_of_mem_drop (PyStr.mem_of_mem_pySplit hmem1 hc))
        have hsep1 : '/' ∉ p1 := PyStr.sep_not_mem_pySplit hmem1
        have hfs : HFAPI.extract_model_id s = p0 ++ '/' :: p1 := by
          unfold HFAPI.extract_model_id
          simp only [hstrip, hcomma, hpre, hparts, if_true]
        rw [hfs]
        refine extract_model_id_fix _ ?_ ?_
        · intro c hc
          rcases List.mem_append.mp hc with hc | hc
          · exact hchars0 c hc
          · rcases List.mem_cons.mp hc with hc | hc
            · subst hc; exact ⟨by decide, by decide⟩
            · exact hchars1 c hc
        · rw [List.count_append, List.count_cons_self,
            List.count_eq_zero.mpr hsep0, List.count_eq_zero.mpr hsep1]
  · have hpre' : HFAPI.hfUrlStart.isPrefixOf s = false := by
      cases hb : HFAPI.hfUrlStart.isPrefixOf s
      · rfl
      · exact absurd hb hpre
    have hfs : HFAPI.extract_model_id s = s := by
      unfold HFAPI.extract_model_id
      simp only [hstrip, hcomma, hpre', Bool.false_eq_true, if_false]
    rw [hfs]; exact hfs

theorem extract_model_id_url_aux (owner nm rest : List Char)
    (ho : owner ≠ []) (hn : nm ≠ []) (ho' : '/' ∉ owner) (hn' : '/' ∉ nm) :
    HFAPI.extract_model_id (HFAPI.hfUrlStart ++ owner ++ ['/'] ++ nm ++ ['/'] ++ rest) =
      owner ++ ['/'] ++ nm := by
  have hh : PyStr.pySpace 'h' = false := by decide
  have hslash : PyStr.pySpace '/' = false := by decide
  -- strip is the identity on the prefix part and acts only inside rest
  have hstrip : PyStr.pyStrip (HFAPI.hfUrlStart ++ owner ++ ['/'] ++ nm ++ ['/'] ++ rest) =
      HFAPI.hfUrlStart ++ (owner ++ '/' :: (nm ++ '/' :: PyStr.stripRight rest)) := by
    unfold PyStr.pyStrip
    have h1 : PyStr.stripLeft (HFAPI.hfUrlStart ++ owner ++ ['/'] ++ nm ++ ['/'] ++ rest) =
        HFAPI.hfUrlStart ++ owner ++ ['/'] ++ nm ++ ['/'] ++ rest := by
      rw [show HFAPI.hfUrlStart = 'h' :: "ttps://huggingface.co/".data from rfl]
      simp only [List.cons_append, List.append_assoc, PyStr.stripLeft,
        List.dropWhile_cons, hh, Bool.false_eq_true, if_false]
    rw [h1]
    have h2 : HFAPI.hfUrlStart ++ owner ++ ['/'] ++ nm ++ ['/'] ++ rest =
        ((HFAPI.hfUrlStart ++ owner ++ ['/'] ++ nm) ++ ['/']) ++ rest := by
      simp [List.append_assoc]
    rw [h2, PyStr.stripRight_append_slash]
    simp [List.append_assoc]
  have hcomma : PyStr.lstripComma
      (HFAPI.hfUrlStart ++ (owner ++ '/' :: (nm ++ '/' :: PyStr.stripRight rest))) =
      HFAPI.hfUrlStart ++ (owner ++ '/' :: (nm ++ '/' :: PyStr.stripRight rest)) := by
    have hcm : ('h' == ',') = false := by decide
    rw [show HFAPI.hfUrlStart = 'h' :: "ttps://huggingface.co/".data from rfl]
    simp only [List.cons_append, PyStr.lstripComma, List.dropWhile_cons, hcm,
      Bool.false_eq_true, if_false]
  have hpre : HFAPI.hfUrlStart.isPrefixOf
      (HFAPI.hfUrlStart ++ (owner ++ '/' :: (nm ++ '/' :: PyStr.stripRight rest))) = true :=
    List.isPrefixOf_iff_prefix.mpr (List.prefix_append _ _)
  have hdrop : (HFAPI.hfUrlStart ++ (owner ++ '/' :: (nm ++ '/' :: PyStr.stripRight rest))).drop
      HFAPI.hfUrlStart.length = owner ++ '/' :: (nm ++ '/' :: PyStr.stripRight rest) :=
    List.drop_left _ _
  have hsplit : PyStr.pySplit '/' (owner ++ '/' :: (nm ++ '/' :: PyStr.stripRight rest)) =
      owner :: nm :: PyStr.pySplit '/' (PyStr.stripRight rest) := by
    rw [PyStr.pySplit_append_sep '/' owner _ ho', PyStr.pySplit_append_sep '/' nm _ hn']
  have hfo : (!owner.isEmpty) = true := by
    cases owner with
    | nil => exact absurd rfl ho
    | cons c cs => rfl
  have hfn : (!nm.isEmpty) = true := by
    cases nm with
    | nil => exact absurd rfl hn
    | cons c cs => rfl
  unfold HFAPI.extract_model_id
  simp only [hstrip, hcomma, hpre, if_true, hdrop, hsplit, List.filter_cons, hfo, hfn]
  simp [List.append_assoc]

/-- Claim C10 counterexample: `_extract_model_id` is not idempotent:
on ", a" the first pass strips the comma and exposes the blank, which
only the second pass removes. -/
theorem extract_model_id_not_idempotent :
    HFAPI.extract_model_id (HFAPI.extract_model_id ", a".data) ≠
      HFAPI.extract_model_id ", a".data := by
  decide

/-- Claim C10 (amended): `_extract_model_id` is idempotent on every
input containing no whitespace and no comma (in general
`strip().lstrip(",")` can expose new leading whitespace, breaking
idempotence), and on every registry URL
`https://huggingface.co/<owner>/<name>/<rest>` with nonempty
slash-free owner and name the result is exactly `<owner>/<name>`. -/
theorem extract_model_id_canonicalization :
    (∀ s : List Char, (∀ c ∈ s, PyStr.pySpace c = false ∧ c ≠ ',') →
      HFAPI.extract_model_id (HFAPI.extract_model_id s) = HFAPI.extract_model_id s) ∧
    (∀ owner nm rest : List Char, owner ≠ [] → nm ≠ [] → '/' ∉ owner → '/' ∉ nm →
      HFAPI.extract_model_id (HFAPI.hfUrlStart ++ owner ++ ['/'] ++ nm ++ ['/'] ++ rest) =
        owner ++ ['/'] ++ nm) :=
  ⟨extract_model_id_idem_aux, extract_model_id_url_aux⟩

/-- Witness for `extract_model_id_canonicalization` on the concrete
URL `https://huggingface.co/a/b/c`. -/
theorem extract_model_id_canonicalization_witness :
    HFAPI.extract_model_id (HFAPI.hfUrlStart ++ "a".data ++ ['/'] ++ "b".data ++ ['/'] ++ "c".data) =
      "a".data ++ ['/'] ++ "b".data :=
  extract_model_id_canonicalization.2 "a".data "b".data "c".data
    (by decide) (by decide) (by decide) (by decide)

/- Helper lemmas for the log-size normalizer (claim C8). -/
theorem logb_ten_1e6 : Real.logb 10 1000000 = 6 := by
  rw [show (1000000 : ℝ) = 10 ^ (6 : ℕ) by norm_num, Real.logb_pow,
    Real.logb_self_eq_one (by norm_num)]
  norm_num

theorem logb_ten_1e10 : Real.logb 10 10000000000 = 10 := by
  rw [show (10000000000 : ℝ) = 10 ^ (10 : ℕ) by norm_num, Real.logb_pow,
    Real.logb_self_eq_one (by norm_num)]
  norm_num

theorem normalize_size_eq (b : ℤ) (hb : 0 < b) :
    HFAPI.normalize_size b = max 0 (min 1 ((Real.logb 10 (b : ℝ) - 6) / 4)) := by
  unfold HFAPI.normalize_size
  rw [if_neg (by omega), logb_ten_1e6, logb_ten_1e10]
  norm_num

/-- Claim C8: `_normalize_size` stays in the unit interval, is 0 at
1 MB (and below), 1 at 10 GB (and above), and is monotonically
non-decreasing. -/
theorem normalize_size_log_interpolation :
    (∀ b : ℤ, 0 ≤ HFAPI.normalize_size b ∧ HFAPI.normalize_size b ≤ 1) ∧
    HFAPI.normalize_size 1000000 = 0 ∧
    HFAPI.normalize_size 10000000000 = 1 ∧
    (∀ a b : ℤ, a ≤ b → HFAPI.normalize_size a ≤ HFAPI.normalize_size b) ∧
    (∀ b : ℤ, b ≤ 1000000 → HFAPI.normalize_size b = 0) ∧
    (∀ b : ℤ, (10000000000 : ℤ) ≤ b → HFAPI.normalize_size b = 1) := by
  have hbound : ∀ b : ℤ, 0 ≤ HFAPI.normalize_size b ∧ HFAPI.normalize_size b ≤ 1 := by
    intro b
    unfold HFAPI.normalize_size
    split
    · norm_num
    · constructor
      · exact le_max_left 0 _
      · exact max_le (by norm_num) (min_le_left 1 _)
  have hzero : ∀ b : ℤ, b ≤ 1000000 → HFAPI.normalize_size b = 0 := by
    intro b hb
    by_cases hb0 : b ≤ 0
    · unfold HFAPI.normalize_size; rw [if_pos hb0]
    · push_neg at hb0
      rw [normalize_size_eq b hb0]
      have hlog : Real.logb 10 (b : ℝ) ≤ 6 := by
        have h6 : Real.logb 10 (b : ℝ) ≤ Real.logb 10 (1000000 : ℝ) :=
          Real.logb_le_logb_of_le (by norm_num) (by exact_mod_cast hb0)
            (by exact_mod_cast hb)
        rwa [logb_ten_1e6] at h6
      have : (Real.logb 10 (b : ℝ) - 6) / 4 ≤ 0 := by linarith
      rw [max_eq_left]
      exact le_trans (min_le_right 1 _) this
  have hone : ∀ b : ℤ, (10000000000 : ℤ) ≤ b → HFAPI.normalize_size b = 1 := by
    intro b hb
    have hb0 : (0 : ℤ) < b := by omega
    rw [normalize_size_eq b hb0]
    have hlog : (10 : ℝ) ≤ Real.logb 10 (b : ℝ) := by
      have h10 : Real.logb 10 (10000000000 : ℝ) ≤ Real.logb 10 (b : ℝ) :=
        Real.logb_le_logb_of_le (by norm_num) (by norm_num) (by exact_mod_cast hb)
      rwa [logb_ten_1e10] at h10
    have h1 : (1 : ℝ) ≤ (Real.logb 10 (b : ℝ) - 6) / 4 := by linarith
    rw [min_eq_left h1, max_eq_right (by norm_num)]
  have hmono : ∀ a b : ℤ, a ≤ b → HFAPI.normalize_size a ≤ HFAPI.normalize_size b := by
    intro a b hab
    by_cases ha : a ≤ 0
    · unfold HFAPI.normalize_size
      rw [if_pos ha]
      exact (hbound b).1.trans_eq rfl
    · push_neg at ha
      have hb : (0 : ℤ) < b := by omega
      rw [normalize_size_eq a ha, normalize_size_eq b hb]
      have hlog : Real.logb 10 (a : ℝ) ≤ Real.logb 10 (b : ℝ) := by
        apply Real.logb_le_logb_of_le (by norm_num) (by exact_mod_cast ha)
        exact_mod_cast hab
      have : (Real.logb 10 (a : ℝ) - 6) / 4 ≤ (Real.logb 10 (b : ℝ) - 6) / 4 := by
        linarith
      exact max_le_max (le_refl 0) (min_le_min (le_refl 1) this)
  refine ⟨hbound, ?_, ?_, hmono, hzero, hone⟩
  · exact hzero 1000000 le_rfl
  · exact hone 10000000000 le_rfl

/-- Witness for `normalize_size_log_interpolation`: monotonicity at a
concrete pair. -/
theorem normalize_size_log_interpolation_witness :
    HFAPI.normalize_size 3 ≤ HFAPI.normalize_size 5 :=
  normalize_size_log_interpolation.2.2.2.1 3 5 (by decide)

/-- Claim C9: evaluations of the LLM-response parser at the inputs
where the code diverges from the claim (and from the repo's own tests
`test_flatten_metrics_mixed` and `test_flatten_metrics_invalid_values`):
an unexpected key is kept, a field whose float-coercion fails is kept
with its raw value, a negative latency passes through unclamped, and
the raw-object extraction spans from the FIRST opening brace to the
end of the text rather than locating the last top-level object. -/
theorem flatten_metrics_keeps_unexpected_and_uncoerced :
    Genai.flatten_metrics [("ignored_metric", .num (1/2))] =
      [("ignored_metric", .num (1/2))] ∧
    Genai.flatten_metrics [("ramp_up_time", .str "invalid")] =
      [("ramp_up_time", .str "invalid")] ∧
    Genai.flatten_metrics [("x_latency", .num (-5))] =
      [("x_latency", .num (-5))] ∧
    Genai.parse_llm_content_extract ("\x7b\"a\": 1\x7d and \x7b\"b\": 2\x7d".data) =
      some ("\x7b\"a\": 1\x7d and \x7b\"b\": 2\x7d".data) := by
  refine ⟨rfl, rfl, ?_, by decide⟩
  simp only [Genai.flatten_metrics, Genai.flattenEntry, Genai.endsWithLatency,
    Genai.pyFloat, List.map, List.flatten]
  norm_num [pyRound, Int.fract]

/- Helper lemmas on the dict model (claims C4, C5, C1). -/

theorem jget_cons (x : String × Genai.JVal) (xs : List (String × Genai.JVal)) (k : String) :
    Genai.jget (x :: xs) k = if (x.1 == k) = true then some x.2 else Genai.jget xs k := by
  unfold Genai.jget
  cases hb : (x.1 == k) <;> simp [List.find?, hb]

theorem jget_append (l1 l2 : List (String × Genai.JVal)) (k : String) :
    Genai.jget (l1 ++ l2) k = (Genai.jget l1 k).or (Genai.jget l2 k) := by
  unfold Genai.jget
  rw [List.find?_append]
  cases List.find? (fun e => e.1 == k) l1 <;> simp

theorem jget_eq_none_of_keys (l : List (String × Genai.JVal)) (k : String)
    (h : ∀ kv ∈ l, (kv.1 == k) = false) : Genai.jget l k = none := by
  unfold Genai.jget
  rw [List.find?_eq_none.mpr]
  · rfl
  · intro a ha
    simp [h a ha]

/-- Claim C4: with an explicit, non-placeholder dataset URL of the
registry shape, neither the GenAI dataset-discovery step nor the HF
card/tag-scan discovery step is invoked, and that URL is the one the
entry uses. -/
theorem explicit_dataset_url_skips_discovery
    (env : CollectNdjson.CEnv) (e : CollectNdjson.Entry)
    (h1 : PyStr.pyStripS e.dataset_url ≠ "")
    (h2 : CollectNdjson.placeholders.contains (pyLower (PyStr.pyStripS e.dataset_url)) = false)
    (h3 : CollectNdjson.dsUrlStart.isPrefixOf (PyStr.pyStripS e.dataset_url).data = true) :
    (CollectNdjson.processEntryC env e).genaiDiscoveryCalled = false ∧
    (CollectNdjson.processEntryC env e).hfDiscoveryCalled = false ∧
    (CollectNdjson.processEntryC env e).datasetUrlUsed = PyStr.pyStripS e.dataset_url := by
  unfold CollectNdjson.processEntryC
  simp only [h2, h3, Bool.false_eq_true, and_false, if_false, not_true, false_and,
    if_neg h1, beq_eq_false_iff_ne.mpr h1, Bool.false_and, and_true, if_true]

/-- Witness for `explicit_dataset_url_skips_discovery` at a concrete
entry carrying an explicit registry dataset URL. -/
theorem explicit_dataset_url_skips_discovery_witness :
    (CollectNdjson.processEntryC
      ⟨.ok "", some ⟨"m", 0, 0⟩, true, .ok [], .ok none, "", .ok []⟩
      ⟨"", "https://huggingface.co/datasets/squad/squad", "m"⟩).genaiDiscoveryCalled
      = false :=
  (explicit_dataset_url_skips_discovery _ _
    (by decide) (by decide) (by decide)).1

/-- Claim C5 counterexample: a `collect_and_write` entry with no
dataset URL, failing GenAI and HF discovery, and no GenAI
dataset_quality is emitted WITHOUT any `dataset_quality` field, where
the claim demands an explicit 0.0. -/
theorem collect_record_omits_dataset_quality :
    (CollectNdjson.processEntryC
      ⟨.ok "", some ⟨"m", 0, 0⟩, true, .ok [], .ok none, "", .ok []⟩
      ⟨"", "", "m"⟩).record.map (fun r => Genai.jget r "dataset_quality") =
      .ok none := by
  rfl

theorem roundTo3_zero : roundTo3 0 = 0 := by norm_num [roundTo3, pyRound]

theorem jget_map_replace (l : List (String × Genai.JVal)) (k k' : String) (v : Genai.JVal)
    (h : k' ≠ k) :
    Genai.jget (l.map (fun e => if e.1 == k then (k, v) else e)) k' = Genai.jget l k' := by
  induction l with
  | nil => rfl
  | cons x xs ih =>
    simp only [List.map]
    rw [jget_cons, jget_cons]
    by_cases hx : x.1 = k
    · have hxb : (x.1 == k) = true := beq_iff_eq.mpr hx
      have h1 : ((k, v).1 == k') = false := beq_eq_false_iff_ne.mpr (Ne.symm h)
      have h2 : (x.1 == k') = false := beq_eq_false_iff_ne.mpr (by rw [hx]; exact Ne.symm h)
      simp only [hxb, if_true, h1, h2, Bool.false_eq_true, if_false, ih]
    · have hxb : (x.1 == k) = false := beq_eq_false_iff_ne.mpr hx
      simp only [hxb, Bool.false_eq_true, if_false, ih]

theorem jget_jset_ne (l : List (String × Genai.JVal)) (k k' : String) (v : Genai.JVal)
    (h : k' ≠ k) : Genai.jget (UrlHandler.jset l k v) k' = Genai.jget l k' := by
  unfold UrlHandler.jset
  split
  · exact jget_map_replace l k k' v h
  · rw [jget_append]
    have : Genai.jget [(k, v)] k' = none := by
      rw [jget_cons]
      simp [beq_eq_false_iff_ne.mpr (Ne.symm h), Genai.jget]
    rw [this]
    cases Genai.jget l k' <;> rfl

theorem jgetVal_of_jget {l1 l2 : List (String × Genai.JVal)} {k : String}
    (h : Genai.jget l1 k = Genai.jget l2 k) :
    Genai.jgetVal l1 k = Genai.jgetVal l2 k := by
  unfold Genai.jgetVal
  rw [h]

theorem except_bind_ok {ε α β : Type} (X : Except ε α) (f : α → Except ε β) (r : β) :
    X.bind f = .ok r ↔ ∃ a, X = .ok a ∧ f a = .ok r := by
  cases X <;> simp [Except.bind]

theorem jget_mergeSize_ne (env : UrlHandler.UEnv) (m : List (String × Genai.JVal))
    (k : String) (h1 : k ≠ "size_score") (h2 : k ≠ "size_score_latency") :
    Genai.jget (UrlHandler.mergeSize env m) k = Genai.jget m k := by
  unfold UrlHandler.mergeSize
  have key : ∀ mm : List (String × Genai.JVal), Genai.jget mm k = Genai.jget m k →
      Genai.jget (if Genai.jTruthy ((Genai.jget mm "size_score_latency").getD .null)
        then mm
        else UrlHandler.jset mm "size_score_latency"
          (.num (env.size_score_latency : ℚ))) k = Genai.jget m k := by
    intro mm hmm
    split
    · exact hmm
    · rw [jget_jset_ne _ _ _ _ h2, hmm]
  apply key
  split
  · rfl
  · split
    · exact jget_jset_ne _ _ _ _ h1
    · rfl

theorem assembleRecordU_dataset_quality (env : UrlHandler.UEnv) (e : UrlHandler.Entry)
    (metrics : List (String × Genai.JVal)) (r : List (String × Genai.JVal))
    (hdq : Genai.jgetVal metrics "dataset_quality" = none)
    (hr : UrlHandler.assembleRecordU env e metrics = .ok r) :
    Genai.jget r "dataset_quality" = some (.num 0) := by
  unfold UrlHandler.assembleRecordU at hr
  rw [hdq] at hr
  simp only [Option.getD, Genai.pyFloat, roundTo3_zero] at hr
  repeat'
    first
    | exact Except.noConfusion hr
    | (rw [Except.ok.injEq] at hr
       subst hr
       simp [jget_append, jget_cons]
       done)
    | (simp only [bind, except_bind_ok, pure, Except.pure, Except.ok.injEq] at hr
       repeat obtain ⟨_, -, hr⟩ := hr)
    | split at hr
  all_goals simp [jget_append, jget_cons]

theorem jget_collect_rec1_dq_none (name : String) (g : List (String × Genai.JVal)) :
    Genai.jget ([("name", Genai.JVal.str name), ("category", Genai.JVal.str "MODEL")] ++
      (["ramp_up_time", "performance_claims", "dataset_and_code_score"].map (fun k =>
        (match Genai.jget g k with
         | some v => [(k, CollectNdjson.round2JV v)]
         | none => []) ++
        (match Genai.jget g (k ++ "_latency") with
         | some v =>
           match Genai.pyInt v with
           | some n => [(k ++ "_latency", Genai.JVal.num (n : ℚ))]
           | none => []
         | none => []))).flatten) "dataset_quality" = none := by
  apply jget_eq_none_of_keys
  intro kv hkv
  rcases List.mem_append.mp hkv with h | h
  · simp at h
    rcases h with h | h <;> (rw [h]; simp)
  · rcases List.mem_flatten.mp h with ⟨sub, hsub, hkv2⟩
    rcases List.mem_map.mp hsub with ⟨k, hk, rfl⟩
    simp only [List.mem_cons, List.not_mem_nil, or_false] at hk
    have keyfact : kv.1 = k ∨ kv.1 = k ++ "_latency" := by
      rcases List.mem_append.mp hkv2 with h2 | h2
      · left
        rcases hm : Genai.jget g k with _ | v
        · rw [hm] at h2
          simp at h2
        · rw [hm] at h2
          simp at h2
          simp [h2]
      · right
        rcases hm : Genai.jget g (k ++ "_latency") with _ | v
        · rw [hm] at h2
          simp at h2
        · rw [hm] at h2
          simp only [] at h2
          rcases hn : Genai.pyInt v with _ | n
          · rw [hn] at h2
            simp at h2
          · rw [hn] at h2
            simp at h2
            simp [h2]
    rcases hk with rfl | rfl | rfl <;> rcases keyfact with h3 | h3 <;> (rw [h3]; simp)

theorem jgetVal_genaiDict_none (env : CollectNdjson.CEnv)
    (gm : List (String × Genai.JVal)) (k : String)
    (hgm : env.genaiMetrics = .ok gm) (h : Genai.jgetVal gm k = none) :
    Genai.jgetVal (CollectNdjson.genaiDict env) k = none := by
  unfold CollectNdjson.genaiDict
  split
  · simp only [hgm]
    exact h
  · rfl

theorem jgetVal_dsqDict_none (env : CollectNdjson.CEnv) (ds3 : String)
    (dqv : List (String × Genai.JVal)) (k : String)
    (hdqv : env.dsQuality = .ok dqv) (h : Genai.jgetVal dqv k = none) :
    Genai.jgetVal (CollectNdjson.dsqDict env ds3) k = none := by
  unfold CollectNdjson.dsqDict
  split
  · simp only [hdqv]
    exact h
  · rfl

theorem buildRecordC_dq_none (env : CollectNdjson.CEnv) (e : CollectNdjson.Entry)
    (genai dsq r : List (String × Genai.JVal))
    (hg : Genai.jgetVal genai "dataset_quality" = none)
    (hd : Genai.jgetVal dsq "dataset_quality" = none)
    (hr : CollectNdjson.buildRecordC env e genai dsq = .ok r) :
    Genai.jget r "dataset_quality" = none := by
  unfold CollectNdjson.buildRecordC at hr
  split at hr
  · exact Except.noConfusion hr
  · simp only [hd, hg] at hr
    rw [Except.ok.injEq] at hr
    subst hr
    exact jget_collect_rec1_dq_none _ _

theorem processEntryU_dataset_quality (env : UrlHandler.UEnv) (e : UrlHandler.Entry)
    (metrics : List (String × Genai.JVal)) (r : List (String × Genai.JVal))
    (hg : env.genai = .ok metrics)
    (hdq : Genai.jgetVal metrics "dataset_quality" = none)
    (hr : UrlHandler.processEntryU env e = .ok r) :
    Genai.jget r "dataset_quality" = some (.num 0) := by
  unfold UrlHandler.processEntryU at hr
  rw [hg] at hr
  simp only [bind, Except.bind] at hr
  refine assembleRecordU_dataset_quality env e _ r ?_ hr
  have hpres := jget_mergeSize_ne env metrics "dataset_quality" (by decide) (by decide)
  unfold Genai.jgetVal at hdq ⊢
  rw [hpres]
  exact hdq

theorem processEntryC_omits_dataset_quality (env : CollectNdjson.CEnv)
    (e : CollectNdjson.Entry)
    (gm dqv : List (String × Genai.JVal)) (r : List (String × Genai.JVal))
    (hgm : env.genaiMetrics = .ok gm)
    (hgdq : Genai.jgetVal gm "dataset_quality" = none)
    (hdqv : env.dsQuality = .ok dqv)
    (hddq : Genai.jgetVal dqv "dataset_quality" = none)
    (hr : (CollectNdjson.processEntryC env e).record = .ok r) :
    Genai.jget r "dataset_quality" = none := by
  unfold CollectNdjson.processEntryC at hr
  exact buildRecordC_dq_none env e _ _ r
    (jgetVal_genaiDict_none env gm _ hgm hgdq)
    (jgetVal_dsqDict_none env _ dqv _ hdqv hddq) hr

/-- Claim C5 (amended): when the LLM metrics carry no dataset-quality
value and (for `collect_and_write`) the dataset-quality fetch yields
none either, `handle_input_file`'s record carries `dataset_quality`
explicitly set to `0.0`, while `collect_and_write`'s record omits the
field entirely. -/
theorem dataset_quality_explicit_amended
    (envU : UrlHandler.UEnv) (eU : UrlHandler.Entry)
    (envC : CollectNdjson.CEnv) (eC : CollectNdjson.Entry)
    (metrics gm dqv : List (String × Genai.JVal))
    (rU rC : List (String × Genai.JVal))
    (hg : envU.genai = .ok metrics)
    (hdq : Genai.jgetVal metrics "dataset_quality" = none)
    (hrU : UrlHandler.processEntryU envU eU = .ok rU)
    (hgm : envC.genaiMetrics = .ok gm)
    (hgdq : Genai.jgetVal gm "dataset_quality" = none)
    (hdqv : envC.dsQuality = .ok dqv)
    (hddq : Genai.jgetVal dqv "dataset_quality" = none)
    (hrC : (CollectNdjson.processEntryC envC eC).record = .ok rC) :
    Genai.jget rU "dataset_quality" = some (.num 0) ∧
    Genai.jget rC "dataset_quality" = none :=
  ⟨processEntryU_dataset_quality envU eU metrics rU hg hdq hrU,
   processEntryC_omits_dataset_quality envC eC gm dqv rC hgm hgdq hdqv hddq hrC⟩

/-- Witness for C5 at concrete inputs. -/
theorem dataset_quality_explicit_amended_witness :
    Genai.jget sampleURecord "dataset_quality" = some (.num 0) ∧
    Genai.jget sampleCRecord "dataset_quality" = none :=
  dataset_quality_explicit_amended sampleUEnv sampleUEntry sampleCEnv sampleCEntry
    [] [] [] sampleURecord sampleCRecord rfl rfl rfl rfl rfl rfl rfl rfl

/-- Claim C1: an `analyze_metrics` failure on the first entry makes
`handle_input_file` lose the whole batch even though the second entry
alone processes fine; and a `fetch_model_metrics` `None` on the first entry of
`collect_and_write` aborts with an AttributeError, emitting no records. -/
theorem handle_input_file_aborts_batch_on_llm_error :
    UrlHandler.handle_input_file
      [(⟨"", "", "m1"⟩, ⟨⟨1, 0⟩, none, 1, .error "API Error"⟩),
       (⟨"", "", "m2"⟩, ⟨⟨1, 0⟩, none, 1, .ok []⟩)] = .error "API Error" ∧
    (UrlHandler.handle_input_file
      [(⟨"", "", "m2"⟩, ⟨⟨1, 0⟩, none, 1, .ok []⟩)]).isOk = true ∧
    CollectNdjson.collect_and_write
      [(⟨"", "", "org/nonexistent-model"⟩,
        ⟨.ok "", none, true, .ok [], .ok none, "", .ok []⟩),
       (⟨"", "", "m2"⟩,
        ⟨.ok "", some ⟨"m2", 0, 0⟩, true, .ok [], .ok none, "", .ok []⟩)]
      = ([], some "AttributeError") :=
  ⟨rfl, rfl, rfl⟩

theorem list_sum_eq_fin_sum {β : Type} [AddCommMonoid β] (l : List β) :
    l.sum = ∑ i : Fin l.length, l.get i := by
  conv_lhs => rw [← List.ofFn_get l]
  exact List.sum_ofFn

theorem list_map_sum_eq_fin_sum {α β : Type} [AddCommMonoid β] (l : List α) (f : α → β) :
    (l.map f).sum = ∑ i : Fin l.length, f (l.get i) := by
  conv_lhs => rw [← List.ofFn_get l]
  rw [List.map_ofFn, List.sum_ofFn]
  rfl

theorem fin_entropy_le_log {n : ℕ} (p : Fin n → ℝ) (hp : ∀ i, 0 < p i)
    (hsum : ∑ i, p i = 1) :
    -(∑ i, p i * Real.log (p i)) ≤ Real.log (n : ℝ) := by
  have hconc : ConcaveOn ℝ (Set.Ioi 0) Real.log := strictConcaveOn_log_Ioi.concaveOn
  have h0 : ∀ i ∈ (Finset.univ : Finset (Fin n)), 0 ≤ p i := fun i _ => (hp i).le
  have hmem : ∀ i ∈ (Finset.univ : Finset (Fin n)),
      (fun i => (p i)⁻¹) i ∈ Set.Ioi (0 : ℝ) := fun i _ =>
    Set.mem_Ioi.mpr (inv_pos.mpr (hp i))
  have h := hconc.le_map_sum h0 hsum hmem
  simp only [smul_eq_mul] at h
  have h1 : ∑ i : Fin n, p i * (p i)⁻¹ = (n : ℝ) := by
    rw [Finset.sum_congr rfl (fun i _ => mul_inv_cancel₀ (hp i).ne')]
    simp
  rw [h1] at h
  have h2 : ∑ i : Fin n, p i * Real.log ((p i)⁻¹) = -(∑ i : Fin n, p i * Real.log (p i)) := by
    simp [Real.log_inv, mul_neg]
  rw [h2] at h
  exact h

theorem bus_factor_eq (counts : List ℕ) (hpos : ∀ c ∈ counts, c ≠ 0)
    (hlen : 2 ≤ counts.length) :
    AnalyzeRepo.bus_factor counts =
      -((counts.map (fun c : ℕ =>
          ((c : ℝ) / (counts.sum : ℝ)) * Real.logb 2 ((c : ℝ) / (counts.sum : ℝ)))).sum)
        / Real.logb 2 (counts.length : ℝ) := by
  have htot : 0 < counts.sum := by
    rcases counts with _ | ⟨c, cs⟩
    · simp at hlen
    · have := hpos c (by simp)
      simp only [List.sum_cons]
      omega
  have hmax : 0 < Real.logb 2 (counts.length : ℝ) := by
    apply Real.logb_pos (by norm_num)
    exact_mod_cast (by omega : 1 < counts.length)
  simp only [AnalyzeRepo.bus_factor]
  rw [if_pos ⟨htot, by omega⟩, if_pos hpos, if_pos hmax, List.map_map]
  rfl

theorem bus_factor_bounds (counts : List ℕ) (hpos : ∀ c ∈ counts, c ≠ 0)
    (hlen : 2 ≤ counts.length) :
    0 ≤ AnalyzeRepo.bus_factor counts ∧ AnalyzeRepo.bus_factor counts ≤ 1 := by
  have htot : 0 < counts.sum := by
    rcases counts with _ | ⟨c, cs⟩
    · simp at hlen
    · have := hpos c (by simp)
      simp only [List.sum_cons]
      omega
  have hT : (0 : ℝ) < (counts.sum : ℝ) := by exact_mod_cast htot
  have hmax : 0 < Real.logb 2 (counts.length : ℝ) := by
    apply Real.logb_pos (by norm_num)
    exact_mod_cast (by omega : 1 < counts.length)
  have hlog2 : (0 : ℝ) < Real.log 2 := Real.log_pos (by norm_num)
  have hp : ∀ i : Fin counts.length, 0 < (counts.get i : ℝ) / (counts.sum : ℝ) := by
    intro i
    apply div_pos _ hT
    have := hpos (counts.get i) (counts.get_mem _ i.isLt)
    exact_mod_cast Nat.pos_of_ne_zero this
  have hp1 : ∀ i : Fin counts.length, (counts.get i : ℝ) / (counts.sum : ℝ) ≤ 1 := by
    intro i
    rw [div_le_one hT]
    exact_mod_cast List.single_le_sum (fun x _ => Nat.zero_le x) _ (counts.get_mem _ i.isLt)
  rw [bus_factor_eq counts hpos hlen,
      list_map_sum_eq_fin_sum counts
        (fun c : ℕ => ((c : ℝ) / (counts.sum : ℝ)) * Real.logb 2 ((c : ℝ) / (counts.sum : ℝ)))]
  constructor
  · apply div_nonneg _ hmax.le
    rw [neg_nonneg]
    apply Finset.sum_nonpos
    intro i _
    have hlb : Real.logb 2 ((counts.get i : ℝ) / (counts.sum : ℝ)) ≤ 0 :=
      Real.logb_nonpos (by norm_num) (hp i).le (hp1 i)
    exact mul_nonpos_of_nonneg_of_nonpos (hp i).le hlb
  · rw [div_le_one hmax]
    have hsum : ∑ i : Fin counts.length, (counts.get i : ℝ) / (counts.sum : ℝ) = 1 := by
      rw [← Finset.sum_div, div_eq_one_iff_eq hT.ne']
      rw [← Nat.cast_sum]
      congr 1
      exact (list_sum_eq_fin_sum counts).symm
    have key := fin_entropy_le_log (fun i => (counts.get i : ℝ) / (counts.sum : ℝ)) hp hsum
    simp only [Real.logb]
    have hcong : ∀ i ∈ (Finset.univ : Finset (Fin counts.length)),
        ((counts.get i : ℝ) / (counts.sum : ℝ)) *
            (Real.log ((counts.get i : ℝ) / (counts.sum : ℝ)) / Real.log 2) =
          ((counts.get i : ℝ) / (counts.sum : ℝ)) *
            Real.log ((counts.get i : ℝ) / (counts.sum : ℝ)) / Real.log 2 :=
      fun i _ => by ring
    rw [Finset.sum_congr rfl hcong, ← Finset.sum_div, ← neg_div]
    gcongr

theorem bus_factor_degenerate (counts : List ℕ)
    (h : counts.length ≤ 1 ∨ counts.sum = 0) :
    AnalyzeRepo.bus_factor counts = 0 := by
  simp only [AnalyzeRepo.bus_factor]
  rw [if_neg]
  rintro ⟨h1, h2⟩
  rcases h with h | h <;> omega

theorem bus_factor_even_split (a : ℕ) (ha : a ≠ 0) :
    AnalyzeRepo.bus_factor [a, a] = 1 := by
  rw [bus_factor_eq [a, a] (by intro c hc; simp at hc; omega) (by simp)]
  simp only [List.map_cons, List.map_nil, List.sum_cons, List.sum_nil,
    List.length_cons, List.length_nil]
  have haR : (0 : ℝ) < (a : ℝ) := by exact_mod_cast Nat.pos_of_ne_zero ha
  push_cast
  have hfrac : (a : ℝ) / ((a : ℝ) + ((a : ℝ) + 0)) = 1 / 2 := by
    rw [add_zero]
    rw [div_eq_div_iff (by linarith) (by norm_num)]
    ring
  rw [hfrac]
  have h12 : Real.logb 2 ((1 : ℝ) / 2) = -1 := by
    rw [one_div, Real.logb_inv, Real.logb_self_eq_one (by norm_num)]
  rw [h12]
  norm_num [Real.logb_self_eq_one]

theorem bus_factor_uneven_split (a b : ℕ) (ha : a ≠ 0) (hb : b ≠ 0) (hne : a ≠ b) :
    0 < AnalyzeRepo.bus_factor [a, b] ∧ AnalyzeRepo.bus_factor [a, b] < 1 := by
  rw [bus_factor_eq [a, b]
    (by intro c hc; simp at hc; rcases hc with rfl | rfl <;> assumption) (by simp)]
  simp only [List.map_cons, List.map_nil, List.sum_cons, List.sum_nil,
    List.length_cons, List.length_nil]
  have haR : (0 : ℝ) < (a : ℝ) := by exact_mod_cast Nat.pos_of_ne_zero ha
  have hbR : (0 : ℝ) < (b : ℝ) := by exact_mod_cast Nat.pos_of_ne_zero hb
  push_cast
  rw [add_zero]
  have habR : (0 : ℝ) < (a : ℝ) + (b : ℝ) := by linarith
  have hbfrac : (b : ℝ) / ((a : ℝ) + (b : ℝ)) = 1 - (a : ℝ) / ((a : ℝ) + (b : ℝ)) := by
    field_simp
  rw [hbfrac]
  have hp0 : 0 < (a : ℝ) / ((a : ℝ) + (b : ℝ)) := div_pos haR habR
  have hp1 : (a : ℝ) / ((a : ℝ) + (b : ℝ)) < 1 := (div_lt_one habR).mpr (by linarith)
  have hpne : (a : ℝ) / ((a : ℝ) + (b : ℝ)) ≠ 2⁻¹ := by
    intro h
    rw [div_eq_iff habR.ne'] at h
    have hR : (a : ℝ) = (b : ℝ) := by linarith
    exact hne (by exact_mod_cast hR)
  have hlen2 : Real.logb 2 (2 : ℝ) = 1 := Real.logb_self_eq_one (by norm_num)
  have hE : -((a : ℝ) / ((a : ℝ) + (b : ℝ)) *
        Real.logb 2 ((a : ℝ) / ((a : ℝ) + (b : ℝ))) +
        ((1 - (a : ℝ) / ((a : ℝ) + (b : ℝ))) *
          Real.logb 2 (1 - (a : ℝ) / ((a : ℝ) + (b : ℝ))) + 0)) =
      Real.binEntropy ((a : ℝ) / ((a : ℝ) + (b : ℝ))) / Real.log 2 := by
    simp only [Real.logb, Real.binEntropy_eq_negMulLog_add_negMulLog_one_sub,
      Real.negMulLog]
    ring
  have hlog2 : (0 : ℝ) < Real.log 2 := Real.log_pos (by norm_num)
  constructor
  · rw [hlen2, div_one, hE]
    exact div_pos (Real.binEntropy_pos hp0 hp1) hlog2
  · rw [hlen2, div_one, hE, div_lt_one hlog2]
    exact Real.binEntropy_lt_log_two.mpr hpne

/-- Claim C6: the bus factor is exactly 0 for at most one contributor
or zero total commits; on every commit-count list with nonzero entries
(the shape `git shortlog -sne` produces) and at least two contributors
it equals the Shannon entropy of the commit-share distribution divided
by log2 of the contributor count and lies in [0,1]; an even
two-contributor split scores exactly 1 and an uneven one a value
strictly between 0 and 1. -/
theorem bus_factor_entropy_normalized :
    (∀ counts : List ℕ, counts.length ≤ 1 ∨ counts.sum = 0 →
        AnalyzeRepo.bus_factor counts = 0) ∧
    (∀ counts : List ℕ, (∀ c ∈ counts, c ≠ 0) → 2 ≤ counts.length →
        AnalyzeRepo.bus_factor counts = AnalyzeRepo.specNormalizedEntropy counts ∧
        0 ≤ AnalyzeRepo.bus_factor counts ∧ AnalyzeRepo.bus_factor counts ≤ 1) ∧
    (∀ a : ℕ, a ≠ 0 → AnalyzeRepo.bus_factor [a, a] = 1) ∧
    (∀ a b : ℕ, a ≠ 0 → b ≠ 0 → a ≠ b →
        0 < AnalyzeRepo.bus_factor [a, b] ∧ AnalyzeRepo.bus_factor [a, b] < 1) :=
  ⟨bus_factor_degenerate,
   fun counts hpos hlen =>
     ⟨(bus_factor_eq counts hpos hlen).trans rfl,
      bus_factor_bounds counts hpos hlen⟩,
   bus_factor_even_split,
   bus_factor_uneven_split⟩

/-- Witness for C6 at concrete count lists. -/
theorem bus_factor_entropy_normalized_witness :
    AnalyzeRepo.bus_factor [5] = 0 ∧
    (AnalyzeRepo.bus_factor [2, 2] = AnalyzeRepo.specNormalizedEntropy [2, 2] ∧
      0 ≤ AnalyzeRepo.bus_factor [2, 2] ∧ AnalyzeRepo.bus_factor [2, 2] ≤ 1) ∧
    AnalyzeRepo.bus_factor [2, 2] = 1 ∧
    (0 < AnalyzeRepo.bus_factor [3, 1] ∧ AnalyzeRepo.bus_factor [3, 1] < 1) :=
  ⟨bus_factor_entropy_normalized.1 [5] (Or.inl (by decide)),
   bus_factor_entropy_normalized.2.1 [2, 2] (by decide) (by decide),
   bus_factor_entropy_normalized.2.2.1 2 (by decide),
   bus_factor_entropy_normalized.2.2.2 3 1 (by decide) (by decide) (by decide)⟩
